import Mathlib

/-!
Verification of the TaskNest server task-lifecycle core (models/taskModel.js,
controllers, routes). The Mongoose task document and its lifecycle hooks are
shallowly embedded: timestamps are `Int` milliseconds, JS strings are lists of
characters, optional document fields are `Option`, and each hook is a pure
function from the pre-state (plus the current time) to the post-state.
-/

namespace TaskNest

/-- Milliseconds since the epoch, the value of a JS `Date`. -/
abbrev Time := Int

/-- A JS string, modelled as its character sequence. -/
abbrev Str := List Char

/-- The STATUS enum of taskModel.js. -/
inductive Status where
  | backlog
  | todo
  | in_progress
  | blocked
  | done
  | canceled
  | archived
deriving DecidableEq, Repr

/-- Characters removed by JS String.prototype.trim (ASCII fragment). -/
def wsChars : List Char := [' ', '\t', '\n', '\x0b', '\x0c', '\r']

/-- Whitespace test used by the trim model. -/
def isWS (c : Char) : Bool := wsChars.contains c

/-- JS String.prototype.toLowerCase on one character (ASCII fragment):
uppercase latin letters are shifted down by 32, all else is unchanged. -/
def jsToLowerChar (c : Char) : Char :=
  if 65 ≤ c.toNat ∧ c.toNat ≤ 90 then Char.ofNat (c.toNat + 32) else c

/-- JS String.prototype.toLowerCase, character-wise. -/
def jsToLower (s : Str) : Str := s.map jsToLowerChar

/-- JS String.prototype.trim: strip whitespace from both ends. -/
def jsTrim (s : Str) : Str :=
  ((s.dropWhile isWS).reverse.dropWhile isWS).reverse

/-- Code points below 0xD800 survive a Char round-trip. -/
theorem char_toNat_ofNat_of_lt {n : Nat} (h : n < 55296) : (Char.ofNat n).toNat = n := by
  rw [Char.ofNat, dif_pos (Or.inl h)]
  rfl

/-- Characters at or above code point 33 are not JS whitespace. -/
theorem isWS_false_of_ge (c : Char) (h : 33 ≤ c.toNat) : isWS c = false := by
  have key : ∀ d : Char, d.toNat < 33 → ¬ c = d := by
    intro d hd e
    subst e
    omega
  simp [isWS, wsChars, List.contains]
  exact ⟨key ' ' (by decide), key '\t' (by decide), key '\n' (by decide),
    key '\x0b' (by decide), key '\x0c' (by decide), key '\r' (by decide)⟩

/-- Lowercasing a character does not change whether it is whitespace. -/
theorem isWS_jsToLowerChar (c : Char) : isWS (jsToLowerChar c) = isWS c := by
  by_cases h : 65 ≤ c.toNat ∧ c.toNat ≤ 90
  · have e1 : jsToLowerChar c = Char.ofNat (c.toNat + 32) := by
      simp [jsToLowerChar, h.1, h.2]
    have hv : (Char.ofNat (c.toNat + 32)).toNat = c.toNat + 32 :=
      char_toNat_ofNat_of_lt (by omega)
    rw [e1, isWS_false_of_ge _ (by omega), isWS_false_of_ge _ (by omega)]
  · have e1 : jsToLowerChar c = c := by simp [jsToLowerChar, h]
    rw [e1]

/-- Character lowercasing is idempotent. -/
theorem jsToLowerChar_idem (c : Char) : jsToLowerChar (jsToLowerChar c) = jsToLowerChar c := by
  by_cases h : 65 ≤ c.toNat ∧ c.toNat ≤ 90
  · have e1 : jsToLowerChar c = Char.ofNat (c.toNat + 32) := by
      simp [jsToLowerChar, h.1, h.2]
    have hv : (Char.ofNat (c.toNat + 32)).toNat = c.toNat + 32 :=
      char_toNat_ofNat_of_lt (by omega)
    rw [e1]
    simp [jsToLowerChar, hv]
    omega
  · have e1 : jsToLowerChar c = c := by simp [jsToLowerChar, h]
    rw [e1, e1]

/-- String lowercasing is idempotent. -/
theorem jsToLower_idem (s : Str) : jsToLower (jsToLower s) = jsToLower s := by
  simp only [jsToLower, List.map_map]
  exact List.map_congr_left (fun c _ => jsToLowerChar_idem c)

/-- dropWhile is idempotent. -/
theorem dropWhile_idem {α : Type} (p : α → Bool) (l : List α) :
    (l.dropWhile p).dropWhile p = l.dropWhile p := by
  induction l with
  | nil => rfl
  | cons x xs ih =>
    by_cases h : p x
    · simp [List.dropWhile_cons, h, ih]
    · simp [List.dropWhile_cons, h]

/-- The head surviving a dropWhile fails the predicate. -/
theorem dropWhile_head_false {α : Type} (p : α → Bool) (l : List α) (x : α) (xs : List α)
    (h : l.dropWhile p = x :: xs) : p x = false := by
  have h0 := List.head?_dropWhile_not p l
  rw [h] at h0
  simpa using h0

/-- A list whose head fails the predicate is untouched by dropWhile. -/
theorem dropWhile_eq_self_of_head {α : Type} (p : α → Bool) (x : α) (xs : List α)
    (h : p x = false) : (x :: xs).dropWhile p = x :: xs := by
  simp [List.dropWhile_cons, h]

/-- Trimming is idempotent. -/
theorem jsTrim_idem (s : Str) : jsTrim (jsTrim s) = jsTrim s := by
  have hA : (s.dropWhile isWS).dropWhile isWS = s.dropWhile isWS := dropWhile_idem isWS s
  have hBrev : (jsTrim s).reverse = (s.dropWhile isWS).reverse.dropWhile isWS := by
    simp [jsTrim]
  have hBdrop : (jsTrim s).dropWhile isWS = jsTrim s := by
    cases hB : jsTrim s with
    | nil => rfl
    | cons x xs =>
      have hsplit : s.dropWhile isWS = jsTrim s ++ ((s.dropWhile isWS).reverse.takeWhile isWS).reverse := by
        have := List.takeWhile_append_dropWhile (p := isWS) (l := (s.dropWhile isWS).reverse)
        calc s.dropWhile isWS
            = (s.dropWhile isWS).reverse.reverse := by simp
          _ = ((s.dropWhile isWS).reverse.takeWhile isWS
                ++ (s.dropWhile isWS).reverse.dropWhile isWS).reverse := by rw [this]
          _ = ((s.dropWhile isWS).reverse.dropWhile isWS).reverse
                ++ ((s.dropWhile isWS).reverse.takeWhile isWS).reverse := by
                rw [List.reverse_append]
          _ = jsTrim s ++ ((s.dropWhile isWS).reverse.takeWhile isWS).reverse := by
                simp [jsTrim]
      have hhead : s.dropWhile isWS = x :: (xs ++ ((s.dropWhile isWS).reverse.takeWhile isWS).reverse) :=
        hsplit.trans (by rw [hB, List.cons_append])
      have hx : isWS x = false := dropWhile_head_false isWS s x _ hhead
      exact dropWhile_eq_self_of_head isWS x xs hx
  calc jsTrim (jsTrim s)
      = (((jsTrim s).dropWhile isWS).reverse.dropWhile isWS).reverse := rfl
    _ = ((jsTrim s).reverse.dropWhile isWS).reverse := by rw [hBdrop]
    _ = (((s.dropWhile isWS).reverse.dropWhile isWS).dropWhile isWS).reverse := by rw [hBrev]
    _ = ((s.dropWhile isWS).reverse.dropWhile isWS).reverse := by rw [dropWhile_idem]
    _ = jsTrim s := rfl

/-- Trimming commutes with lowercasing. -/
theorem jsTrim_jsToLower_comm (s : Str) : jsTrim (jsToLower s) = jsToLower (jsTrim s) := by
  have hcomp : (isWS ∘ jsToLowerChar) = isWS := funext isWS_jsToLowerChar
  unfold jsTrim jsToLower
  rw [List.dropWhile_map, hcomp, ← List.map_reverse, List.dropWhile_map, hcomp,
    ← List.map_reverse]

/-- One entry of timeLogs (TimeLogSchema). -/
structure TimeLog where
  startedAt : Time
  endedAt : Option Time
  seconds : Option Int
  user : Option Nat
deriving DecidableEq, Repr

/-- The task document: the TaskSchema fields that the lifecycle hooks,
virtuals and controllers read or write. Collaboration, recurrence, subtask,
comment and attachment fields never interact with the claims and are
omitted as inert. -/
structure Task where
  owner : Nat
  title : Str
  status : Status
  isArchived : Bool
  archivedAt : Option Time
  completedAt : Option Time
  dueDate : Option Time
  tags : List Str
  timeLogs : List TimeLog
  totalTimeSeconds : Int
deriving DecidableEq, Repr

/-- Tag normalization from the pre-save hook:
`this.tags.filter((t) => typeof t === 'string' && t.trim().length).map((t) => t.trim().toLowerCase())`.
Every element is a string here, so the typeof guard is always true. -/
def normalizeTags (tags : List Str) : List Str :=
  (tags.filter (fun t => !(jsTrim t).isEmpty)).map (fun t => jsToLower (jsTrim t))

/-- The pre-save hook of TaskSchema, run with the document state `t`
(whose status has already been assigned) at current time `now`. -/
def saveHook (t : Task) (now : Time) : Task :=
  let t1 :=
    if t.status = Status.archived then
      { t with isArchived := true,
               archivedAt := if t.archivedAt = none then some now else t.archivedAt }
    else t
  let t2 :=
    if t1.status = Status.done ∧ t1.completedAt = none then
      { t1 with completedAt := some now }
    else t1
  let t3 :=
    if t2.status ≠ Status.done then { t2 with completedAt := none } else t2
  { t3 with tags := normalizeTags t3.tags }

/-- The `$set` part of a findOneAndUpdate update document: the paths the
pre-update hook reads or writes. -/
structure SetDoc where
  status : Option Status
  isArchived : Option Bool
  archivedAt : Option Time
  completedAt : Option Time
deriving DecidableEq, Repr

/-- An empty `$set`. -/
def SetDoc.empty : SetDoc :=
  { status := none, isArchived := none, archivedAt := none, completedAt := none }

/-- A findOneAndUpdate update document: top-level fields (which Mongoose
folds into `$set` when applying), the `$set` operator, and the
`$unset: { completedAt: '' }` the hook may add. -/
structure UpdateDoc where
  status : Option Status
  title : Option Str
  completedAt : Option Time
  set : SetDoc
  unsetCompletedAt : Bool
deriving DecidableEq, Repr

/-- An update document with no fields. -/
def UpdateDoc.empty : UpdateDoc :=
  { status := none, title := none, completedAt := none,
    set := SetDoc.empty, unsetCompletedAt := false }

/-- The JS nullish-coalescing operator on optional values. -/
def firstSome {α : Type} (a b : Option α) : Option α :=
  match a with
  | some x => some x
  | none => b

/-- The pre-findOneAndUpdate hook of TaskSchema: rewrites the pending
update document at current time `now`. -/
def updateHook (u : UpdateDoc) (now : Time) : UpdateDoc :=
  let u1 :=
    if u.status = some Status.archived ∨ u.set.status = some Status.archived then
      { u with set := { u.set with isArchived := some true, archivedAt := some now } }
    else u
  let newStatus := firstSome u1.status u1.set.status
  if newStatus = some Status.done then
    { u1 with set := { u1.set with completedAt := some now } }
  else if newStatus.isSome then
    { u1 with unsetCompletedAt := true }
  else u1

/-- MongoDB application of an update document to a stored task: top-level
fields and `$set` assignments land on the document, `$unset` removes
completedAt. -/
def applyUpdate (t : Task) (u : UpdateDoc) : Task :=
  { t with
    status := (firstSome u.status u.set.status).getD t.status,
    title := u.title.getD t.title,
    isArchived := u.set.isArchived.getD t.isArchived,
    archivedAt := firstSome u.set.archivedAt t.archivedAt,
    completedAt :=
      if u.unsetCompletedAt then none
      else firstSome (firstSome u.set.completedAt u.completedAt) t.completedAt }

/-- Applying a target status through the full-save entry point: assign the
status on the document and run the pre-save hook. -/
def savePath (t : Task) (s : Status) (now : Time) : Task :=
  saveHook { t with status := s } now

/-- The update document `{ status: s }` sent by a status-only partial update. -/
def statusUpdate (s : Status) : UpdateDoc :=
  { UpdateDoc.empty with status := some s }

/-- Applying a target status through the partial-update entry point: run the
pre-findOneAndUpdate hook on `{ status: s }` and apply the result. -/
def updatePath (t : Task) (s : Status) (now : Time) : Task :=
  applyUpdate t (updateHook (statusUpdate s) now)

/-- The derived fields compared across the two entry points. -/
def derived (t : Task) : Option Time × Bool × Option Time :=
  (t.completedAt, t.isArchived, t.archivedAt)

/-- TaskSchema.methods.addTimeLog: push a log entry and bump the running
total. The arguments mirror the destructured call
`{ startedAt, endedAt, seconds, user }`; `now` is `new Date()`. -/
def addTimeLog (t : Task) (startedAt endedAt : Option Time) (seconds : Option Int)
    (user : Option Nat) (now : Time) : Task :=
  let log : TimeLog :=
    { startedAt := startedAt.getD now, endedAt := endedAt, seconds := seconds, user := user }
  let t1 := { t with timeLogs := t.timeLogs ++ [log] }
  match seconds with
  | some n => { t1 with totalTimeSeconds := t1.totalTimeSeconds + max 0 n }
  | none =>
    match startedAt, endedAt with
    | some s, some e =>
        { t1 with totalTimeSeconds := t1.totalTimeSeconds + max 0 (Int.fdiv (e - s) 1000) }
    | _, _ => t1

/-- The isOverdue virtual:
`!!(this.dueDate && !['done','canceled','archived'].includes(this.status) && this.dueDate < new Date())`. -/
def isOverdue (t : Task) (now : Time) : Bool :=
  match t.dueDate with
  | none => false
  | some d =>
    !([Status.done, Status.canceled, Status.archived].contains t.status) && decide (d < now)

/-- The (single-collection) persistent store: task documents keyed by id. -/
abbrev Store := List (Nat × Task)

/-- Lookup by id, the filter part of findById. -/
def storeFind (st : Store) (id : Nat) : Option Task :=
  (st.find? (fun p => p.1 = id)).map Prod.snd

/-- Replace the document with the given id. -/
def storeSet (st : Store) (id : Nat) (t : Task) : Store :=
  st.map (fun p => if p.1 = id then (p.1, t) else p)

/-- Remove the document with the given id. -/
def storeDelete (st : Store) (id : Nat) : Store :=
  st.filter (fun p => p.1 ≠ id)

/-- Model.findByIdAndUpdate: looks the task up by id only, runs the
pre-findOneAndUpdate hook on the update, applies it, and returns the
updated document (with `new: true`) or none. -/
def findByIdAndUpdate (st : Store) (id : Nat) (u : UpdateDoc) (now : Time) :
    Option Task × Store :=
  match storeFind st id with
  | none => (none, st)
  | some t =>
    let t1 := applyUpdate t (updateHook u now)
    (some t1, storeSet st id t1)

/-- Model.findByIdAndDelete: looks the task up by id only and deletes it,
returning the removed document or none. -/
def findByIdAndDelete (st : Store) (id : Nat) : Option Task × Store :=
  match storeFind st id with
  | none => (none, st)
  | some t => (some t, storeDelete st id)

/-- Outcome of a controller call, as far as the claims observe it. -/
inductive CtrlResult where
  | ok (t : Option Task)
  | notFound
deriving DecidableEq, Repr

/-- controllers updateTask: if the body carries status done it stamps
completedAt, then calls findByIdAndUpdate with the task id from the URL.
The authenticated requester (req.user) is never consulted. -/
def controllerUpdateTask (st : Store) (taskId : Nat) (body : UpdateDoc) (now : Time) :
    CtrlResult × Store :=
  let body1 :=
    if body.status = some Status.done then { body with completedAt := some now } else body
  match findByIdAndUpdate st taskId body1 now with
  | (none, st1) => (CtrlResult.notFound, st1)
  | (some t1, st1) => (CtrlResult.ok (some t1), st1)

/-- controllers deleteTask: calls findByIdAndDelete with the task id from
the URL. The authenticated requester (req.user) is never consulted. -/
def controllerDeleteTask (st : Store) (taskId : Nat) : CtrlResult × Store :=
  match findByIdAndDelete st taskId with
  | (none, st1) => (CtrlResult.notFound, st1)
  | (some _, st1) => (CtrlResult.ok none, st1)

/-- A baseline task document used for concrete evaluations: freshly created
with the schema defaults (status todo, not archived, no timestamps). -/
def task0 : Task :=
  { owner := 7, title := [], status := Status.todo, isArchived := false,
    archivedAt := none, completedAt := none, dueDate := none,
    tags := [], timeLogs := [], totalTimeSeconds := 0 }

/-- A pre-findOneAndUpdate hook call whose update carries no status key
(top-level or under $set) returns the update unchanged. -/
theorem updateHook_eq_of_no_status (u : UpdateDoc) (now : Time)
    (h1 : u.status = none) (h2 : u.set.status = none) : updateHook u now = u := by
  simp [updateHook, firstSome, h1, h2]

/-- Claim C1 (counterexample): on a task whose archivedAt is already set,
applying status archived through the save hook keeps the old timestamp while
the findOneAndUpdate hook overwrites it, so the two entry points disagree. -/
theorem save_update_paths_diverge_on_preset_archivedAt :
    derived (savePath { task0 with isArchived := true, archivedAt := some 3 } Status.archived 9)
      ≠ derived (updatePath { task0 with isArchived := true, archivedAt := some 3 } Status.archived 9) := by
  decide

/-- Claim C1 (amended): the full-save and partial-update entry points yield the
same derived fields (completedAt, isArchived, archivedAt) for every target
status, provided archivedAt is unset when the target is archived and
completedAt is unset when the target is done; otherwise the update path
overwrites the timestamp with the current time while the save path keeps it. -/
theorem save_update_paths_agree_when_timestamps_unset (t : Task) (s : Status) (now : Time)
    (h1 : s = Status.archived → t.archivedAt = none)
    (h2 : s = Status.done → t.completedAt = none) :
    derived (savePath t s now) = derived (updatePath t s now) := by
  obtain ⟨ow, ti, st, ia, aa, ca, dd, tg, tl, tt⟩ := t
  cases s with
  | archived =>
    have ha : aa = none := h1 rfl
    subst ha
    simp [derived, savePath, updatePath, saveHook, updateHook, applyUpdate, statusUpdate,
      UpdateDoc.empty, SetDoc.empty, firstSome, normalizeTags]
  | done =>
    have hc : ca = none := h2 rfl
    subst hc
    simp [derived, savePath, updatePath, saveHook, updateHook, applyUpdate, statusUpdate,
      UpdateDoc.empty, SetDoc.empty, firstSome, normalizeTags]
  | backlog =>
    simp [derived, savePath, updatePath, saveHook, updateHook, applyUpdate, statusUpdate,
      UpdateDoc.empty, SetDoc.empty, firstSome, normalizeTags]
  | todo =>
    simp [derived, savePath, updatePath, saveHook, updateHook, applyUpdate, statusUpdate,
      UpdateDoc.empty, SetDoc.empty, firstSome, normalizeTags]
  | in_progress =>
    simp [derived, savePath, updatePath, saveHook, updateHook, applyUpdate, statusUpdate,
      UpdateDoc.empty, SetDoc.empty, firstSome, normalizeTags]
  | blocked =>
    simp [derived, savePath, updatePath, saveHook, updateHook, applyUpdate, statusUpdate,
      UpdateDoc.empty, SetDoc.empty, firstSome, normalizeTags]
  | canceled =>
    simp [derived, savePath, updatePath, saveHook, updateHook, applyUpdate, statusUpdate,
      UpdateDoc.empty, SetDoc.empty, firstSome, normalizeTags]

/-- Witness for the amended C1 theorem at a concrete fresh task. -/
theorem save_update_paths_agree_when_timestamps_unset_witness :
    derived (savePath task0 Status.archived 9) = derived (updatePath task0 Status.archived 9) :=
  save_update_paths_agree_when_timestamps_unset task0 Status.archived 9 (fun _ => rfl)
    (fun h => absurd h (by decide))

/-- Claim C2: after a full save, after a partial update that carries a status,
and after a partial update that carries neither a status nor a completedAt
assignment (starting from a consistent task), completedAt is present iff the
resulting status is done. -/
theorem completedAt_present_iff_status_done :
    (∀ t : Task, ∀ now : Time,
        ((saveHook t now).completedAt.isSome ↔ (saveHook t now).status = Status.done))
    ∧ (∀ t : Task, ∀ s : Status, ∀ now : Time,
        ((updatePath t s now).completedAt.isSome ↔ (updatePath t s now).status = Status.done))
    ∧ (∀ t : Task, ∀ u : UpdateDoc, ∀ now : Time,
        u.status = none → u.set.status = none → u.set.completedAt = none →
        u.completedAt = none → u.unsetCompletedAt = false →
        (t.completedAt.isSome ↔ t.status = Status.done) →
        ((applyUpdate t (updateHook u now)).completedAt.isSome
          ↔ (applyUpdate t (updateHook u now)).status = Status.done)) := by
  refine ⟨?_, ?_, ?_⟩
  · intro t now
    obtain ⟨ow, ti, st, ia, aa, ca, dd, tg, tl, tt⟩ := t
    cases st <;> cases ca <;> simp [saveHook, normalizeTags]
  · intro t s now
    obtain ⟨ow, ti, st, ia, aa, ca, dd, tg, tl, tt⟩ := t
    cases s <;> simp [updatePath, updateHook, applyUpdate, statusUpdate, UpdateDoc.empty,
      SetDoc.empty, firstSome]
  · intro t u now h1 h2 h3 h4 h5 h6
    rw [updateHook_eq_of_no_status u now h1 h2]
    simpa [applyUpdate, firstSome, h1, h2, h3, h4, h5] using h6

/-- Witness for C2 at a concrete task and an empty update document. -/
theorem completedAt_present_iff_status_done_witness :
    ((applyUpdate task0 (updateHook UpdateDoc.empty 5)).completedAt.isSome
      ↔ (applyUpdate task0 (updateHook UpdateDoc.empty 5)).status = Status.done) :=
  completedAt_present_iff_status_done.2.2 task0 UpdateDoc.empty 5 rfl rfl rfl rfl rfl
    (by decide)

/-- Claim C3 (counterexample): re-archiving through the partial-update entry
point moves archivedAt from 3 to the current time 9. -/
theorem repeated_archive_moves_archivedAt_on_update_path :
    (updatePath { task0 with isArchived := true, archivedAt := some 3 }
        Status.archived 9).archivedAt = some 9
    ∧ (some (9 : Time)) ≠ (some (3 : Time)) := by decide

/-- Claim C3 (amended): a target status of archived forces isArchived = true on
both entry points; an already-set archivedAt is preserved by the save entry
point, but the update entry point always overwrites archivedAt with now. -/
theorem archive_rule_amended (t : Task) (now : Time) :
    (savePath t Status.archived now).isArchived = true
    ∧ (updatePath t Status.archived now).isArchived = true
    ∧ (∀ a : Time, t.archivedAt = some a → (savePath t Status.archived now).archivedAt = some a)
    ∧ (updatePath t Status.archived now).archivedAt = some now := by
  obtain ⟨ow, ti, st, ia, aa, ca, dd, tg, tl, tt⟩ := t
  refine ⟨?_, ?_, ?_, ?_⟩
  · simp [savePath, saveHook, normalizeTags]
  · simp [updatePath, updateHook, applyUpdate, statusUpdate, UpdateDoc.empty, SetDoc.empty,
      firstSome]
  · intro a hae
    have ha : aa = some a := hae
    subst ha
    simp [savePath, saveHook, normalizeTags]
  · simp [updatePath, updateHook, applyUpdate, statusUpdate, UpdateDoc.empty, SetDoc.empty,
      firstSome]

/-- Witness for the amended C3 theorem: save-path idempotence at archivedAt 3. -/
theorem archive_rule_amended_witness :
    (savePath { task0 with archivedAt := some 3 } Status.archived 9).archivedAt = some 3 :=
  (archive_rule_amended { task0 with archivedAt := some 3 } 9).2.2.1 3 rfl

/-- Claim C4 (counterexample): re-applying status done through the
partial-update entry point resets completedAt from 5 to the current time 9. -/
theorem repeat_done_resets_completedAt_on_update_path :
    (updatePath { task0 with status := Status.done, completedAt := some 5 }
        Status.done 9).completedAt = some 9
    ∧ (some (9 : Time)) ≠ (some (5 : Time)) := by decide

/-- Claim C4 (amended): with completedAt already set, applying status done
again keeps the earlier value on the save entry point but resets it to the
current time on the partial-update entry point. -/
theorem done_again_amended (t : Task) (c now : Time) (h : t.completedAt = some c) :
    (savePath t Status.done now).completedAt = some c
    ∧ (updatePath t Status.done now).completedAt = some now := by
  obtain ⟨ow, ti, st, ia, aa, ca, dd, tg, tl, tt⟩ := t
  have hc : ca = some c := h
  subst hc
  constructor
  · simp [savePath, saveHook, normalizeTags]
  · simp [updatePath, updateHook, applyUpdate, statusUpdate, UpdateDoc.empty, SetDoc.empty,
      firstSome]

/-- Witness for the amended C4 theorem at completedAt 5, current time 9. -/
theorem done_again_amended_witness :
    (savePath { task0 with completedAt := some 5 } Status.done 9).completedAt = some 5
    ∧ (updatePath { task0 with completedAt := some 5 } Status.done 9).completedAt = some 9 :=
  done_again_amended { task0 with completedAt := some 5 } 5 9 rfl

/-- Claim C5 (counterexample): moving a done task (completedAt 5) directly to
archived through the save hook sets isArchived but clears completedAt, so the
completion state is not retained. -/
theorem done_to_archived_clears_completedAt :
    (savePath { task0 with status := Status.done, completedAt := some 5 }
        Status.archived 9).isArchived = true
    ∧ (savePath { task0 with status := Status.done, completedAt := some 5 }
        Status.archived 9).completedAt = none
    ∧ (none : Option Time) ≠ some 5 := by decide

/-- Claim C5 (amended): moving any task directly to status archived through the
full save yields isArchived = true, but completedAt is cleared by the
unconditional not-done rule, so the task is archived and no longer marked
completed. -/
theorem done_to_archived_amended (t : Task) (now : Time) :
    (savePath t Status.archived now).isArchived = true
    ∧ (savePath t Status.archived now).completedAt = none := by
  obtain ⟨ow, ti, st, ia, aa, ca, dd, tg, tl, tt⟩ := t
  constructor <;> simp [savePath, saveHook, normalizeTags]

/-- Claim C6: the time-log aggregator adds max(0, seconds) when seconds is a
number, else max(0, floor((endedAt - startedAt)/1000)) when both timestamps
are given, else 0; and the new entry is appended at the end of the log list. -/
theorem addTimeLog_aggregation (t : Task) (sa ea : Option Time) (sec : Option Int)
    (u : Option Nat) (now : Time) :
    (∀ n : Int, sec = some n →
        (addTimeLog t sa ea sec u now).totalTimeSeconds = t.totalTimeSeconds + max 0 n)
    ∧ (∀ a b : Time, sec = none → sa = some a → ea = some b →
        (addTimeLog t sa ea sec u now).totalTimeSeconds
          = t.totalTimeSeconds + max 0 (Int.fdiv (b - a) 1000))
    ∧ (sec = none → sa = none ∨ ea = none →
        (addTimeLog t sa ea sec u now).totalTimeSeconds = t.totalTimeSeconds)
    ∧ ∃ lg : TimeLog, (addTimeLog t sa ea sec u now).timeLogs = t.timeLogs ++ [lg] := by
  refine ⟨?_, ?_, ?_, ?_⟩
  · intro n hn
    subst hn
    simp [addTimeLog]
  · intro a b hs ha hb
    subst hs
    subst ha
    subst hb
    simp [addTimeLog]
  · intro hs hd
    subst hs
    rcases hd with h | h
    · subst h
      cases ea <;> simp [addTimeLog]
    · subst h
      cases sa <;> simp [addTimeLog]
  · refine ⟨{ startedAt := sa.getD now, endedAt := ea, seconds := sec, user := u }, ?_⟩
    cases sec <;> cases sa <;> cases ea <;> simp [addTimeLog]

/-- Witness for C6: an explicit-seconds log adds exactly max(0, 90). -/
theorem addTimeLog_aggregation_witness :
    (addTimeLog task0 none none (some 90) none 0).totalTimeSeconds
      = task0.totalTimeSeconds + max 0 90 :=
  (addTimeLog_aggregation task0 none none (some 90) none 0).1 90 rfl

/-- The pre-save hook rewrites the tags to their normalized form and touches
no other part of the tag list. -/
theorem saveHook_tags (t : Task) (now : Time) :
    (saveHook t now).tags = normalizeTags t.tags := by
  obtain ⟨ow, ti, st, ia, aa, ca, dd, tg, tl, tt⟩ := t
  cases st <;> cases ca <;> simp [saveHook]

/-- Claim C7: after any full save the tags are exactly the trimmed lowercased
survivors of the input, every surviving entry is trimmed, lowercase and
nonempty after trimming, and the surviving subsequence keeps the input order. -/
theorem save_tag_normalization (t : Task) (now : Time) :
    (saveHook t now).tags
        = (t.tags.filter (fun x => !(jsTrim x).isEmpty)).map (fun x => jsToLower (jsTrim x))
    ∧ (∀ e ∈ (saveHook t now).tags, jsTrim e = e ∧ jsToLower e = e ∧ jsTrim e ≠ [])
    ∧ (t.tags.filter (fun x => !(jsTrim x).isEmpty)).Sublist t.tags := by
  have htags : (saveHook t now).tags = normalizeTags t.tags := saveHook_tags t now
  refine ⟨by rw [htags]; rfl, ?_, List.filter_sublist _⟩
  intro e he
  rw [htags] at he
  unfold normalizeTags at he
  obtain ⟨x, hx, rfl⟩ := List.mem_map.mp he
  have hxf := List.mem_filter.mp hx
  have hne : jsTrim x ≠ [] := by
    have h2 := hxf.2
    simpa [List.isEmpty_iff] using h2
  have htrimmed : jsTrim (jsToLower (jsTrim x)) = jsToLower (jsTrim x) := by
    rw [jsTrim_jsToLower_comm, jsTrim_idem]
  refine ⟨htrimmed, jsToLower_idem _, ?_⟩
  rw [htrimmed]
  unfold jsToLower
  simpa using hne

/-- Witness for C7: the tag with surrounding blanks and capitals normalizes
and the surviving entry satisfies all three properties. -/
theorem save_tag_normalization_witness :
    jsTrim ['f', 'o', 'o'] = ['f', 'o', 'o']
    ∧ jsToLower ['f', 'o', 'o'] = ['f', 'o', 'o']
    ∧ jsTrim ['f', 'o', 'o'] ≠ [] :=
  (save_tag_normalization { task0 with tags := [[' ', 'F', 'o', 'o', ' ']] } 0).2.1
    ['f', 'o', 'o'] (by decide)

/-- Claim C8: the controller update and delete handlers look tasks up by id
only (the requesting user is not an argument at all), so a task owned by
user 7 is updated and deleted with success for any requester; the not-found
branch with no state change is reached only for a missing id. -/
theorem controller_update_delete_ignore_owner :
    (controllerUpdateTask [(1, task0)] 1 { UpdateDoc.empty with title := some ['x'] } 0).1
        ≠ CtrlResult.notFound
    ∧ (controllerUpdateTask [(1, task0)] 1 { UpdateDoc.empty with title := some ['x'] } 0).2
        ≠ [(1, task0)]
    ∧ (controllerDeleteTask [(1, task0)] 1).1 ≠ CtrlResult.notFound
    ∧ (controllerDeleteTask [(1, task0)] 1).2 = []
    ∧ controllerUpdateTask [(1, task0)] 2 { UpdateDoc.empty with title := some ['x'] } 0
        = (CtrlResult.notFound, [(1, task0)])
    ∧ controllerDeleteTask [(1, task0)] 2 = (CtrlResult.notFound, [(1, task0)]) := by
  decide

/-- Claim C9: the isOverdue virtual is true iff dueDate is set and strictly
before the current time and the status is none of done, canceled, archived. -/
theorem isOverdue_iff (t : Task) (now : Time) :
    isOverdue t now = true ↔
      (∃ d : Time, t.dueDate = some d ∧ d < now)
      ∧ t.status ≠ Status.done ∧ t.status ≠ Status.canceled ∧ t.status ≠ Status.archived := by
  obtain ⟨ow, ti, st, ia, aa, ca, dd, tg, tl, tt⟩ := t
  cases dd with
  | none => simp [isOverdue]
  | some d => cases st <;> simp [isOverdue, List.contains]

/-- Claim C10: a partial update whose payload carries no status key, neither
top-level nor under $set, passes through the pre-update hook unchanged, so
completedAt, isArchived and archivedAt are untouched in the update. -/
theorem update_without_status_leaves_derivation_fields (u : UpdateDoc) (now : Time)
    (h1 : u.status = none) (h2 : u.set.status = none) :
    updateHook u now = u :=
  updateHook_eq_of_no_status u now h1 h2

/-- Witness for C10: a payload updating the title and even isArchived, but no
status, is returned unchanged by the hook. -/
theorem update_without_status_leaves_derivation_fields_witness :
    updateHook { UpdateDoc.empty with
        title := some ['x'], set := { SetDoc.empty with isArchived := some true } } 0
      = { UpdateDoc.empty with
          title := some ['x'], set := { SetDoc.empty with isArchived := some true } } :=
  update_without_status_leaves_derivation_fields _ 0 rfl rfl

end TaskNest
